import Mathlib

/-!
Verification of the AI-Debate backend's normalization and verdict pipeline.

Text is modelled as `List Char` (Python `str`).  Each definition shallowly
embeds one function of the repository:

* `backend/agents/base_agent.py` : `_word_count`, `_clean_response`,
  `_enforce_word_limit`, `_pad_to_min` and the clean→pad→trim composition
  used by the lawyer agents (`normalizeText`);
* `backend/agents/judge.py` : `_parse_verdict_json` with its fence
  stripping, balanced-object scan, `json.loads` model, light repair,
  heuristic regex fallback, and the repair-escalation logic of
  `evaluate_debate`;
* `backend/models/schemas.py` : the pydantic validators for `Argument`,
  `Verdict`, `DebateTranscript`;
* `backend/utils/debate_coordinator.py` : `_retry` and `run_debate`
  (instrumented with a call trace so data-flow claims can be stated).
-/

set_option maxRecDepth 40000

namespace AIDebate

/-- Python `str.split()` / `\s` whitespace characters (space, tab, newline,
carriage return, vertical tab, form feed). -/
def isSpc (c : Char) : Bool :=
  c = ' ' || c = '\t' || c = '\n' || c = '\r' || c = '\x0b' || c = '\x0c'

/-- Split a character list into (current leading group, later groups), where
groups are the maximal runs separated by whitespace.  Helper for `tokens`. -/
def splitAux : List Char → List Char × List (List Char)
  | [] => ([], [])
  | c :: cs =>
    let p := splitAux cs
    if isSpc c then ([], p.1 :: p.2) else (c :: p.1, p.2)

/-- The whitespace-delimited tokens of a text: model of Python
`text.split()` and of `re.findall(r"\S+", text)`. -/
def tokens (l : List Char) : List (List Char) :=
  ((splitAux l).1 :: (splitAux l).2).filter (· ≠ [])

/-- `BaseAgent._word_count` / the schema `_word_count`: number of
whitespace-delimited tokens. -/
def wordCount (l : List Char) : Nat := (tokens l).length

/-- Python `" ".join(words)`. -/
def joinWords : List (List Char) → List Char
  | [] => []
  | [w] => w
  | w :: ws => w ++ ' ' :: joinWords ws

/-- Python `str.lstrip()`. -/
def trimLeft (l : List Char) : List Char := l.dropWhile (fun c => isSpc c)

/-- Python `str.rstrip()`. -/
def trimRight (l : List Char) : List Char :=
  (l.reverse.dropWhile (fun c => isSpc c)).reverse

/-- Python `str.strip()`. -/
def pyStrip (l : List Char) : List Char := trimRight (trimLeft l)

/-- ASCII letter, the `[a-zA-Z]` class of the fence regex. -/
def isAsciiLetter (c : Char) : Bool :=
  ('a' ≤ c && c ≤ 'z') || ('A' ≤ c && c ≤ 'Z')

/-- The `^\x60\x60\x60[a-zA-Z]*\n` alternative of the fence-stripping regex:
if the text starts with three backticks, a run of ASCII letters and a
newline, return the remainder. -/
def fenceHead : List Char → Option (List Char)
  | '\x60' :: '\x60' :: '\x60' :: rest =>
    match rest.dropWhile (fun c => isAsciiLetter c) with
    | '\n' :: r => some r
    | _ => none
  | _ => none

/-- The `\x60\x60\x60$` alternative: three backticks at the very end, or
immediately before one final newline (Python `$` also matches there).  The
match removes only the backticks. -/
def fenceTailDrop : List Char → Option (List Char)
  | l =>
    if l.length ≥ 3 && l.drop (l.length - 3) = ['\x60', '\x60', '\x60'] then
      some (l.take (l.length - 3))
    else if l.length ≥ 4 && l.drop (l.length - 4) = ['\x60', '\x60', '\x60', '\n'] then
      some (l.take (l.length - 4) ++ ['\n'])
    else none

/-- Model of `re.sub(r"^\x60\x60\x60[a-zA-Z]*\n|\x60\x60\x60$", "", t)`:
the leftmost-scanning substitution removes an anchored fence head and a
fence tail (the tail only when it does not overlap the removed head). -/
def fenceSub (l : List Char) : List Char :=
  match fenceHead l with
  | some r =>
    match fenceTailDrop r with
    | some r2 => r2
    | none => r
  | none =>
    match fenceTailDrop l with
    | some r2 => r2
    | none => l

/-- Quote-stripping step of `_clean_response`: one layer of matching
enclosing double or single quotes, then `strip()`. -/
def stripQuotes (t : List Char) : List Char :=
  if t ≠ [] &&
      ((t.head? = some '"' && t.getLast? = some '"') ||
        (t.head? = some '\'' && t.getLast? = some '\'')) then
    pyStrip ((t.drop 1).dropLast)
  else t

/-- `re.sub(r"[ \t]+", " ", t)`: collapse every run of spaces/tabs into a
single space, keeping newlines.  The flag records whether the previous
character was part of a space/tab run. -/
def collapseAux : Bool → List Char → List Char
  | _, [] => []
  | prev, c :: cs =>
    if c = ' ' || c = '\t' then
      if prev then collapseAux true cs else ' ' :: collapseAux true cs
    else c :: collapseAux false cs

def collapseSpaces (l : List Char) : List Char := collapseAux false l

/-- `BaseAgent._clean_response` (the input is always a `str` here, so the
`isinstance` guard is omitted): strip, remove fences, strip, remove one
layer of enclosing quotes (with inner strip), collapse horizontal
whitespace. -/
def cleanResponse (text : List Char) : List Char :=
  collapseSpaces (stripQuotes (pyStrip (fenceSub (pyStrip text))))

/-- The fixed filler sentence of `BaseAgent._pad_to_min` (16 words, starting
with a space). -/
def fillerChars : List Char :=
  (" Therefore, based on the foregoing reasons, this position is justified and the requested remedy follows logically.").data

/-- One-or-more iterations of the `while len(words) < min_words` loop of
`_pad_to_min`.  The loop appends `fillerChars` and strips; each iteration
adds exactly 16 words (`wordCount_strip_append_filler` below), so the fuel
`minW` given by `padToMin` is never exhausted before the bound is met. -/
def padLoop : Nat → List Char → Nat → List Char
  | 0, text, _ => text
  | fuel + 1, text, minW =>
    if minW ≤ wordCount text then text
    else padLoop fuel (pyStrip (text ++ fillerChars)) minW

/-- `BaseAgent._pad_to_min`. -/
def padToMin (text : List Char) (minW : Nat) : List Char :=
  padLoop minW text minW

/-- Sentence-terminal punctuation of `_enforce_word_limit`. -/
def isSentEnd (c : Char) : Bool := c = '.' || c = '!' || c = '?'

/-- Model of `re.search(r"^(.+[.!?])\s*", trimmed)`: the group is the
longest prefix (of length at least 2, confined to the first line because
`.` does not cross a newline) that ends in sentence punctuation.  Returns
the length of the group. -/
def sentenceCut (l : List Char) : Option Nat :=
  let line := l.takeWhile (fun c => c ≠ '\n')
  match (line.enum.filter (fun p => isSentEnd p.2)).getLast? with
  | some (i, _) => if 1 ≤ i then some (i + 1) else none
  | none => none

/-- `BaseAgent._enforce_word_limit` (the `min_words` parameter is accepted
and ignored, as in the source). -/
def enforceWordLimit (text : List Char) (_minW maxW : Nat) : List Char :=
  let ws := tokens text
  if maxW < ws.length then
    let trimmed := joinWords (ws.take maxW)
    match sentenceCut trimmed with
    | some k => trimmed.take k
    | none => trimmed
  else text

/-- The clean → pad → trim composition applied by
`EmotionalLawyer.generate_argument` / `LogicalLawyer.generate_argument`
(lines `_clean_response`, `_pad_to_min`, `_enforce_word_limit`). -/
def normalizeText (raw : List Char) (minW maxW : Nat) : List Char :=
  enforceWordLimit (padToMin (cleanResponse raw) minW) minW maxW

/-! ### Tokenization lemmas -/

theorem splitAux_append_spc (c : Char) (hc : isSpc c = true) (l₁ l₂ : List Char) :
    splitAux (l₁ ++ c :: l₂) =
      ((splitAux l₁).1, (splitAux l₁).2 ++ (splitAux l₂).1 :: (splitAux l₂).2) := by
  induction l₁ with
  | nil => simp [splitAux, hc]
  | cons d l₁ ih =>
    by_cases hd : isSpc d = true
    · simp [splitAux, hd, ih]
    · simp [splitAux, hd, ih]

theorem tokens_append_spc (c : Char) (hc : isSpc c = true) (l₁ l₂ : List Char) :
    tokens (l₁ ++ c :: l₂) = tokens l₁ ++ tokens l₂ := by
  simp only [tokens, splitAux_append_spc c hc l₁ l₂]
  rw [show (splitAux l₁).1 :: ((splitAux l₁).2 ++ (splitAux l₂).1 :: (splitAux l₂).2) =
    ((splitAux l₁).1 :: (splitAux l₁).2) ++ ((splitAux l₂).1 :: (splitAux l₂).2) from rfl]
  rw [List.filter_append]

theorem tokens_append_allspc (l₁ l₂ : List Char) (h : ∀ c ∈ l₂, isSpc c = true) :
    tokens (l₁ ++ l₂) = tokens l₁ := by
  induction l₂ using List.reverseRecOn with
  | nil => simp
  | append_singleton ys y ih =>
    have hy : isSpc y = true := h y (by simp)
    have hsplit : l₁ ++ (ys ++ [y]) = (l₁ ++ ys) ++ y :: [] := by simp
    rw [hsplit, tokens_append_spc y hy (l₁ ++ ys) []]
    have h0 : tokens ([] : List Char) = [] := rfl
    rw [h0, List.append_nil]
    exact ih fun c hc => h c (by simp [hc])

theorem tokens_cons_spc (c : Char) (hc : isSpc c = true) (l : List Char) :
    tokens (c :: l) = tokens l := by
  have := tokens_append_spc c hc [] l
  simpa [tokens, splitAux] using this

theorem tokens_trimLeft (l : List Char) : tokens (trimLeft l) = tokens l := by
  induction l with
  | nil => rfl
  | cons c cs ih =>
    by_cases hc : isSpc c = true
    · rw [trimLeft, List.dropWhile_cons_of_pos (by simpa using hc),
        tokens_cons_spc c hc]
      exact ih
    · rw [trimLeft, List.dropWhile_cons_of_neg (by simpa using hc)]

theorem mem_takeWhile_spc (l : List Char) (c : Char)
    (h : c ∈ l.takeWhile (fun d => isSpc d)) : isSpc c = true := by
  induction l with
  | nil => simp [List.takeWhile] at h
  | cons d ds ih =>
    by_cases hd : isSpc d = true
    · rw [List.takeWhile_cons_of_pos (by simpa using hd)] at h
      rcases List.mem_cons.mp h with h | h
      · exact h ▸ hd
      · exact ih h
    · rw [List.takeWhile_cons_of_neg (by simpa using hd)] at h
      simp at h

theorem tokens_trimRight (l : List Char) : tokens (trimRight l) = tokens l := by
  have hdec : l = trimRight l ++ (l.reverse.takeWhile (fun d => isSpc d)).reverse := by
    rw [trimRight, ← List.reverse_append, List.takeWhile_append_dropWhile,
      List.reverse_reverse]
  conv_rhs => rw [hdec]
  rw [tokens_append_allspc]
  intro c hc
  exact mem_takeWhile_spc l.reverse c (List.mem_reverse.mp hc)

theorem tokens_pyStrip (l : List Char) : tokens (pyStrip l) = tokens l := by
  rw [pyStrip, tokens_trimRight, tokens_trimLeft]

theorem wordCount_strip_append_filler (t : List Char) :
    wordCount (pyStrip (t ++ fillerChars)) = wordCount t + 16 := by
  have hfill : fillerChars = ' ' :: fillerChars.tail := by rfl
  rw [wordCount, tokens_pyStrip, hfill, tokens_append_spc ' ' (by rfl)]
  have : (tokens fillerChars.tail).length = 16 := by decide
  simp [wordCount, this]

/-! ### Padding establishes the minimum -/

theorem padLoop_ge (fuel : Nat) (text : List Char) (minW : Nat)
    (h : minW ≤ wordCount text + 16 * fuel) :
    minW ≤ wordCount (padLoop fuel text minW) := by
  induction fuel generalizing text with
  | zero => simpa using h
  | succ n ih =>
    rw [padLoop]
    by_cases hw : minW ≤ wordCount text
    · simp [hw]
    · simp only [hw, if_false]
      apply ih
      rw [wordCount_strip_append_filler]
      omega

theorem padToMin_ge (text : List Char) (minW : Nat) :
    minW ≤ wordCount (padToMin text minW) := by
  apply padLoop_ge
  have : minW ≤ 16 * minW := by omega
  omega

theorem padToMin_of_ge (text : List Char) (minW : Nat)
    (h : minW ≤ wordCount text) : padToMin text minW = text := by
  cases minW with
  | zero => rfl
  | succ n => simp [padToMin, padLoop, h]

/-! ### Tokens are nonempty and space-free; joining them inverts `tokens` -/

theorem splitAux_spacefree (l : List Char) :
    (∀ c ∈ (splitAux l).1, isSpc c = false) ∧
      ∀ w ∈ (splitAux l).2, ∀ c ∈ w, isSpc c = false := by
  induction l with
  | nil => simp [splitAux]
  | cons d ds ih =>
    by_cases hd : isSpc d = true
    · simp only [splitAux, hd, if_true]
      refine ⟨by simp, ?_⟩
      intro w hw
      rcases List.mem_cons.mp hw with h | h
      · exact h ▸ ih.1
      · exact ih.2 w h
    · simp only [splitAux, hd, if_false]
      refine ⟨?_, ih.2⟩
      intro c hc
      rcases List.mem_cons.mp hc with h | h
      · subst h; simpa using hd
      · exact ih.1 c h

theorem tokens_words (l : List Char) :
    ∀ w ∈ tokens l, w ≠ [] ∧ ∀ c ∈ w, isSpc c = false := by
  intro w hw
  rw [tokens] at hw
  have hmem := List.mem_of_mem_filter hw
  have hne : w ≠ [] := by
    have := List.of_mem_filter hw
    simpa using this
  refine ⟨hne, ?_⟩
  rcases List.mem_cons.mp hmem with h | h
  · exact h ▸ (splitAux_spacefree l).1
  · exact (splitAux_spacefree l).2 w h

theorem splitAux_of_spacefree (l : List Char) (h : ∀ c ∈ l, isSpc c = false) :
    splitAux l = (l, []) := by
  induction l with
  | nil => rfl
  | cons c cs ih =>
    have hc : isSpc c = false := h c (by simp)
    simp [splitAux, hc, ih fun d hd => h d (by simp [hd])]

theorem tokens_of_word (w : List Char) (hne : w ≠ [])
    (h : ∀ c ∈ w, isSpc c = false) : tokens w = [w] := by
  simp [tokens, splitAux_of_spacefree w h, hne]

theorem wordCount_spacefree (l : List Char) (h : ∀ c ∈ l, isSpc c = false) :
    wordCount l ≤ 1 := by
  by_cases hne : l = []
  · subst hne; simp [wordCount, tokens, splitAux]
  · rw [wordCount, tokens_of_word l hne h]; simp

theorem tokens_join (ws : List (List Char))
    (h : ∀ w ∈ ws, w ≠ [] ∧ ∀ c ∈ w, isSpc c = false) :
    tokens (joinWords ws) = ws := by
  induction ws with
  | nil => rfl
  | cons w ws ih =>
    cases ws with
    | nil =>
      have hw := h w (by simp)
      simpa [joinWords] using tokens_of_word w hw.1 hw.2
    | cons w2 ws2 =>
      have hw := h w (by simp)
      rw [show joinWords (w :: w2 :: ws2) = w ++ ' ' :: joinWords (w2 :: ws2) from rfl,
        tokens_append_spc ' ' (by rfl), tokens_of_word w hw.1 hw.2,
        ih fun v hv => h v (by simp [List.mem_cons.mp hv])]
      rfl

theorem wordCount_take_join (ws : List (List Char)) (k : Nat)
    (h : ∀ w ∈ ws, w ≠ [] ∧ ∀ c ∈ w, isSpc c = false) :
    wordCount ((joinWords ws).take k) ≤ ws.length := by
  induction ws generalizing k with
  | nil => simp [joinWords, wordCount, tokens, splitAux]
  | cons w ws ih =>
    cases ws with
    | nil =>
      have hw := h w (by simp)
      have : wordCount ((joinWords [w]).take k) ≤ 1 := by
        apply wordCount_spacefree
        intro c hc
        exact hw.2 c (List.take_subset k w (by simpa [joinWords] using hc))
      simpa using this
    | cons w2 ws2 =>
      have hw := h w (by simp)
      rw [show joinWords (w :: w2 :: ws2) = w ++ ' ' :: joinWords (w2 :: ws2) from rfl]
      rw [List.take_append_eq_append_take]
      by_cases hk : k - w.length = 0
      · rw [hk, List.take_zero, List.append_nil]
        have h1 : wordCount (w.take k) ≤ 1 :=
          wordCount_spacefree _ fun c hc => hw.2 c (List.take_subset k w hc)
        simp only [List.length_cons]
        omega
      · obtain ⟨m, hm⟩ : ∃ m, k - w.length = m + 1 :=
          ⟨(k - w.length) - 1, by omega⟩
        have htk : w.take k = w := List.take_of_length_le (by omega)
        rw [hm, htk, List.take_succ_cons]
        have hcount := tokens_append_spc ' ' (by rfl) w ((joinWords (w2 :: ws2)).take m)
        rw [wordCount, hcount, tokens_of_word w hw.1 hw.2]
        have hih := ih m fun v hv => h v (by simp [List.mem_cons.mp hv])
        rw [wordCount] at hih
        simp only [List.length_cons] at hih
        simp only [List.length_append, List.length_cons, List.length_nil]
        omega

/-! ### Word-limit enforcement bounds -/

theorem enforceWordLimit_wc_le (text : List Char) (minW maxW : Nat) :
    wordCount (enforceWordLimit text minW maxW) ≤ maxW := by
  simp only [enforceWordLimit]
  by_cases h : maxW < (tokens text).length
  · rw [if_pos h]
    have hwords : ∀ w ∈ (tokens text).take maxW, w ≠ [] ∧ ∀ c ∈ w, isSpc c = false :=
      fun w hw => tokens_words text w (List.take_subset _ _ hw)
    have hlen : ((tokens text).take maxW).length ≤ maxW := by
      rw [List.length_take]; omega
    cases hcut : sentenceCut (joinWords ((tokens text).take maxW)) with
    | some k =>
      simp only [hcut]
      calc wordCount ((joinWords ((tokens text).take maxW)).take k)
          ≤ ((tokens text).take maxW).length := wordCount_take_join _ k hwords
        _ ≤ maxW := hlen
    | none =>
      simp only [hcut]
      rw [wordCount, tokens_join _ hwords]
      exact hlen
  · rw [if_neg h]
    rw [wordCount]
    omega

theorem enforceWordLimit_of_le (text : List Char) (minW maxW : Nat)
    (h : wordCount text ≤ maxW) : enforceWordLimit text minW maxW = text := by
  rw [enforceWordLimit]
  have hn : ¬ maxW < (tokens text).length := by rw [wordCount] at h; omega
  simp [hn]

/-- Claim C2 counterexample: with `min = 2 ≤ max = 3`, the input
`a. b b b b` normalizes to `a.` — the trim stage keeps the first 3 words
and then truncates at the last sentence-terminal punctuation, which sits
before the 2nd word, so the result has word count 1 < min. -/
theorem c2_counterexample :
    2 ≤ 3 ∧ wordCount (normalizeText (("a. b b b b").data) 2 3) = 1 ∧ ¬ 2 ≤ 1 :=
  ⟨by decide, by decide, by decide⟩

/-- Claim C2, amended: for `min ≤ max` the normalization pipeline always
returns at most `max` words, and at least `min` words whenever the
trim stage's sentence-boundary truncation does not fire on the
`max`-word prefix of the padded text. -/
theorem c2_normalize_band (raw : List Char) (minW maxW : Nat) (h : minW ≤ maxW) :
    wordCount (normalizeText raw minW maxW) ≤ maxW ∧
      (sentenceCut (joinWords ((tokens (padToMin (cleanResponse raw) minW)).take maxW)) = none →
        minW ≤ wordCount (normalizeText raw minW maxW)) := by
  constructor
  · exact enforceWordLimit_wc_le (padToMin (cleanResponse raw) minW) minW maxW
  · intro hcut
    have hpad : minW ≤ wordCount (padToMin (cleanResponse raw) minW) :=
      padToMin_ge (cleanResponse raw) minW
    rw [normalizeText]
    simp only [enforceWordLimit]
    by_cases hlen : maxW < (tokens (padToMin (cleanResponse raw) minW)).length
    · rw [if_pos hlen]
      simp only [hcut]
      have hwords : ∀ w ∈ (tokens (padToMin (cleanResponse raw) minW)).take maxW,
          w ≠ [] ∧ ∀ c ∈ w, isSpc c = false :=
        fun w hw => tokens_words _ w (List.take_subset _ _ hw)
      rw [wordCount, tokens_join _ hwords, List.length_take]
      omega
    · rw [if_neg hlen]
      exact hpad

/-- Witness for the amended C2 on a concrete input where the truncation
hypothesis holds. -/
theorem c2_normalize_band_witness :
    1 ≤ 5 ∧
      (wordCount (normalizeText (("hello world").data) 1 5) ≤ 5 ∧
        (sentenceCut (joinWords ((tokens (padToMin (cleanResponse (("hello world").data)) 1)).take 5)) = none →
          1 ≤ wordCount (normalizeText (("hello world").data) 1 5))) :=
  ⟨by decide, c2_normalize_band (("hello world").data) 1 5 (by decide)⟩

/-- Claim C8 counterexample: normalization is not idempotent.  The cleaning
stage strips one layer of enclosing quotes per pass, so the doubly quoted
input loses a second quote layer on the second pass. -/
theorem c8_counterexample :
    1 ≤ 2 ∧
      normalizeText (normalizeText (("\"\"hello\"\"").data) 1 2) 1 2 ≠
        normalizeText (("\"\"hello\"\"").data) 1 2 :=
  ⟨by decide, by decide⟩

/-- Claim C8, amended: normalization is idempotent whenever the first
application yields at least `min` words (the sentence-boundary truncation
may drop below this) and the cleaning stage leaves the first result
unchanged (quote/fence stripping may fire again). -/
theorem c8_normalize_idempotent (x : List Char) (minW maxW : Nat)
    (hmin : minW ≤ wordCount (normalizeText x minW maxW))
    (hclean : cleanResponse (normalizeText x minW maxW) = normalizeText x minW maxW) :
    normalizeText (normalizeText x minW maxW) minW maxW = normalizeText x minW maxW := by
  have hmax : wordCount (normalizeText x minW maxW) ≤ maxW :=
    enforceWordLimit_wc_le (padToMin (cleanResponse x) minW) minW maxW
  conv_lhs => rw [normalizeText]
  rw [hclean, padToMin_of_ge _ _ hmin, enforceWordLimit_of_le _ _ _ hmax]

/-- Witness for the amended C8 at a concrete fixed point of cleaning. -/
theorem c8_normalize_idempotent_witness :
    (1 ≤ wordCount (normalizeText (("hello world friend").data) 1 5) ∧
      cleanResponse (normalizeText (("hello world friend").data) 1 5) =
        normalizeText (("hello world friend").data) 1 5) ∧
      normalizeText (normalizeText (("hello world friend").data) 1 5) 1 5 =
        normalizeText (("hello world friend").data) 1 5 :=
  ⟨⟨by decide, by decide⟩,
    c8_normalize_idempotent (("hello world friend").data) 1 5 (by decide) (by decide)⟩

/-! ### JSON values and a model of `json.loads`

`json.loads` is standard-library code; it is modelled here by a recursive
descent parser over the full JSON grammar, plus Python's `NaN`/`Infinity`/
`-Infinity` extensions.  A numeral with a fraction or exponent (a Python
float) is kept as its exact decimal value `flt m e` (the number
`m·10^e`): Python converts it to an IEEE double, so values needing more
than double precision, or overflowing to infinity, are represented here
with full precision instead — no claim depends on such values, and the
only operations the source applies to floats (two-sided integer-bounded
clamps followed by `int(...)`) agree on both representations whenever the
decimal fits a double.  Object construction keeps key/value pairs in
order; `objGet` mirrors Python dict semantics where a later duplicate key
overwrites an earlier one. -/

inductive Json where
  | null : Json
  | bool : Bool → Json
  | num : Int → Json
  | flt : Int → Int → Json
  | nan : Json
  | inf : Bool → Json
  | str : List Char → Json
  | arr : List Json → Json
  | obj : List (List Char × Json) → Json

/-- Python dict lookup on the parsed key/value list: the last binding of a
key wins. -/
def objGet (kvs : List (List Char × Json)) (k : List Char) : Option Json :=
  match kvs with
  | [] => none
  | (k', v) :: rest =>
    match objGet rest k with
    | some r => some r
    | none => if k' = k then some v else none

/-- JSON whitespace accepted between tokens. -/
def isJsonWs (c : Char) : Bool := c = ' ' || c = '\t' || c = '\n' || c = '\r'

def skipWs (s : List Char) : List Char := s.dropWhile (fun c => isJsonWs c)

/-- Value of one hexadecimal digit, by code point: `0`–`9` are 48–57,
`a`–`f` are 97–102, `A`–`F` are 65–70. -/
def hexVal (c : Char) : Option Nat :=
  let n := c.toNat
  if 48 ≤ n && n ≤ 57 then some (n - 48)
  else if 97 ≤ n && n ≤ 102 then some (n - 87)
  else if 65 ≤ n && n ≤ 70 then some (n - 55)
  else none

def escChar (c : Char) : Option Char :=
  if c = '"' then some '"'
  else if c = '\\' then some '\\'
  else if c = '/' then some '/'
  else if c = 'b' then some '\x08'
  else if c = 'f' then some '\x0c'
  else if c = 'n' then some '\n'
  else if c = 'r' then some '\r'
  else if c = 't' then some '\t'
  else none

/-- JSON string body scanner (after the opening quote), fueled by the input
length; returns the decoded content and the remainder after the closing
quote.  Control characters are rejected as in strict `json.loads`. -/
def jstrBody : Nat → List Char → Option (List Char × List Char)
  | 0, _ => none
  | _ + 1, [] => none
  | _ + 1, '"' :: rest => some ([], rest)
  | fuel + 1, '\\' :: rest =>
    match rest with
    | 'u' :: h1 :: h2 :: h3 :: h4 :: r =>
      match hexVal h1, hexVal h2, hexVal h3, hexVal h4 with
      | some a, some b, some c, some d =>
        match jstrBody fuel r with
        | some (s, r2) => some (Char.ofNat (((a * 16 + b) * 16 + c) * 16 + d) :: s, r2)
        | none => none
      | _, _, _, _ => none
    | e :: r =>
      match escChar e with
      | some c =>
        match jstrBody fuel r with
        | some (s, r2) => some (c :: s, r2)
        | none => none
      | none => none
    | [] => none
  | fuel + 1, c :: rest =>
    if c.toNat < 32 then none
    else
      match jstrBody fuel rest with
      | some (s, r2) => some (c :: s, r2)
      | none => none

def natOfDigits (ds : List Char) : Nat :=
  ds.foldl (fun a c => 10 * a + (c.toNat - '0'.toNat)) 0

/-- Optional exponent after the mantissa digits.  `shift` is the decimal
shift contributed by the fraction and `isFloat` whether a fraction was
seen: a numeral with neither fraction nor exponent is a Python `int`
(`Json.num`), anything else a float (`Json.flt`). -/
def numWithExp (mantissaDs : List Char) (shift : Int) (isFloat : Bool)
    (r : List Char) : Option (Json × List Char) :=
  match r with
  | c :: rest =>
    if c = 'e' || c = 'E' then
      match
        (match rest with
         | '+' :: rr => ((1 : Int), rr)
         | '-' :: rr => ((-1 : Int), rr)
         | _ => ((1 : Int), rest)) with
      | (sgn, r2) =>
        let es := r2.takeWhile (fun d => d.isDigit)
        if es.isEmpty then none
        else
          some (Json.flt ((natOfDigits mantissaDs : Int))
            (shift + sgn * (natOfDigits es : Int)), r2.drop es.length)
    else if isFloat then some (Json.flt (natOfDigits mantissaDs : Int) shift, c :: rest)
    else some (Json.num (natOfDigits mantissaDs : Int), c :: rest)
  | [] =>
    if isFloat then some (Json.flt (natOfDigits mantissaDs : Int) shift, [])
    else some (Json.num (natOfDigits mantissaDs : Int), [])

/-- Unsigned JSON numeral: integer digits without a redundant leading
zero, optional `.digits` fraction, optional exponent. -/
def numBody (s : List Char) : Option (Json × List Char) :=
  let ds := s.takeWhile (fun c => c.isDigit)
  if ds.isEmpty then none
  else if 1 < ds.length && ds.head? = some '0' then none
  else
    match s.drop ds.length with
    | '.' :: rf =>
      let fs := rf.takeWhile (fun c => c.isDigit)
      if fs.isEmpty then none
      else numWithExp (ds ++ fs) (-(fs.length : Int)) true (rf.drop fs.length)
    | r1 => numWithExp ds 0 false r1

/-- Numeral negation (only number-shaped values reach it). -/
def negJson : Json → Json
  | Json.num n => Json.num (-n)
  | Json.flt m e => Json.flt (-m) e
  | j => j

/-- A signed numeral, or one of Python's `NaN`/`Infinity`/`-Infinity`
extensions (accepted by `json.loads` in exactly these spellings). -/
def parseJNum (s : List Char) : Option (Json × List Char) :=
  match s with
  | 'N' :: 'a' :: 'N' :: r => some (Json.nan, r)
  | 'I' :: 'n' :: 'f' :: 'i' :: 'n' :: 'i' :: 't' :: 'y' :: r => some (Json.inf true, r)
  | '-' :: 'I' :: 'n' :: 'f' :: 'i' :: 'n' :: 'i' :: 't' :: 'y' :: r => some (Json.inf false, r)
  | '-' :: r => (numBody r).map (fun p => (negJson p.1, p.2))
  | _ => (numBody s).map (fun p => (p.1, p.2))

/-- The three mutually recursive parsing functions (value, array items
after `[`, object items after `\x7b`), built level by level on fuel so the
whole parser is structurally recursive and kernel-computable. -/
structure JParsers where
  val : List Char → Option (Json × List Char)
  arrItems : List Char → Option (List Json × List Char)
  objItems : List Char → Option (List (List Char × Json) × List Char)

def jparsers : Nat → JParsers
  | 0 => ⟨fun _ => none, fun _ => none, fun _ => none⟩
  | fuel + 1 =>
    let P := jparsers fuel
    { val := fun s0 =>
        match skipWs s0 with
        | '"' :: r => (jstrBody (r.length + 1) r).map (fun p => (Json.str p.1, p.2))
        | 't' :: 'r' :: 'u' :: 'e' :: r => some (Json.bool true, r)
        | 'f' :: 'a' :: 'l' :: 's' :: 'e' :: r => some (Json.bool false, r)
        | 'n' :: 'u' :: 'l' :: 'l' :: r => some (Json.null, r)
        | '[' :: r =>
          match skipWs r with
          | ']' :: r2 => some (Json.arr [], r2)
          | r1 => (P.arrItems r1).map (fun p => (Json.arr p.1, p.2))
        | '\x7b' :: r =>
          match skipWs r with
          | '\x7d' :: r2 => some (Json.obj [], r2)
          | r1 => (P.objItems r1).map (fun p => (Json.obj p.1, p.2))
        | s => parseJNum s,
      arrItems := fun s =>
        match P.val s with
        | none => none
        | some (v, r) =>
          match skipWs r with
          | ',' :: r2 => (P.arrItems r2).map (fun p => (v :: p.1, p.2))
          | ']' :: r2 => some ([v], r2)
          | _ => none,
      objItems := fun s =>
        match skipWs s with
        | '"' :: r =>
          match jstrBody (r.length + 1) r with
          | none => none
          | some (k, r2) =>
            match skipWs r2 with
            | ':' :: r3 =>
              match P.val r3 with
              | none => none
              | some (v, r4) =>
                match skipWs r4 with
                | ',' :: r5 => (P.objItems r5).map (fun p => ((k, v) :: p.1, p.2))
                | '\x7d' :: r5 => some ([(k, v)], r5)
                | _ => none
            | _ => none
        | _ => none }

/-- Model of `json.loads`: one value, possibly surrounded by whitespace,
nothing else. -/
def jsonLoads (s : List Char) : Option Json :=
  match (jparsers (s.length + 2)).val s with
  | some (v, rest) => if skipWs rest = [] then some v else none
  | none => none

/-- `try_load` in `_parse_verdict_json` combined with the caller's
`data is None` check: a parse failure and a parsed top-level `null` are
indistinguishable to the caller, so both are `none` here. -/
def tryLoad (s : List Char) : Option Json :=
  match jsonLoads s with
  | some Json.null => none
  | r => r

/-! ### `JudgeAgent._parse_verdict_json` -/

/-- The judge's `strip_fences`: strip, remove the fence wrapper, strip. -/
def stripFencesJudge (text : List Char) : List Char :=
  pyStrip (fenceSub (pyStrip text))

/-- The balanced-object scan of `extract_first_object`, mirroring its
per-character `depth`/`in_str`/`esc` state.  `acc` collects the scanned
region in reverse.  The depth is an `Int` exactly as in Python (it can
only reach the `depth == 1` exit here because the caller starts the scan
at a `\x7b`). -/
def scanBalanced : List Char → Int → Bool → Bool → List Char → Option (List Char)
  | [], _, _, _, _ => none
  | c :: cs, depth, inStr, esc, acc =>
    if inStr then
      if esc then scanBalanced cs depth true false (c :: acc)
      else if c = '\\' then scanBalanced cs depth true true (c :: acc)
      else if c = '"' then scanBalanced cs depth false false (c :: acc)
      else scanBalanced cs depth true false (c :: acc)
    else
      if c = '"' then scanBalanced cs depth true false (c :: acc)
      else if c = '\x7b' then scanBalanced cs (depth + 1) false false (c :: acc)
      else if c = '\x7d' then
        if depth = 1 then some (c :: acc).reverse
        else scanBalanced cs (depth - 1) false false (c :: acc)
      else scanBalanced cs depth false false (c :: acc)

/-- `extract_first_object`: scan from the first `\x7b` (found by `s.find`,
which ignores string literals) for the minimal balanced object. -/
def extractFirstObject (s : List Char) : Option (List Char) :=
  match s.dropWhile (fun c => c ≠ '\x7b') with
  | [] => none
  | region => scanBalanced region 0 false false []

/-- `repair_json`, i.e. `re.sub(r",\s*([\x7d\]])", r"\1", s)`: each comma
followed by optional whitespace and a closing brace/bracket is replaced by
the bracket alone; scanning resumes after the match.  Fueled by the input
length (each step consumes at least one character). -/
def repairAux : Nat → List Char → List Char
  | 0, s => s
  | _ + 1, [] => []
  | fuel + 1, c :: rest =>
    if c = ',' then
      match rest.drop ((rest.takeWhile (fun d => isSpc d)).length) with
      | b :: r2 =>
        if b = '\x7d' || b = ']' then b :: repairAux fuel r2
        else c :: repairAux fuel rest
      | [] => c :: repairAux fuel rest
    else c :: repairAux fuel rest

def repairJson (s : List Char) : List Char := repairAux (s.length + 1) s

/-! ### The heuristic regex fallback (`_extract_int` / `_extract_winner`) -/

def emotionalChars : List Char := ("emotional").data
def logicalChars : List Char := ("logical").data
def tieChars : List Char := ("tie").data
def winnerChars : List Char := ("winner").data
def scoreChars : List Char := ("score").data

/-- Case-insensitive literal match (`re.IGNORECASE`); the pattern `p` is
given in lowercase.  Returns the remainder on success. -/
def matchCI : List Char → List Char → Option (List Char)
  | [], s => some s
  | _ :: _, [] => none
  | p :: ps, c :: cs => if c.toLower = p then matchCI ps cs else none

/-- The `[_\s-]` separator class. -/
def sepClass (c : Char) : Bool := c = '_' || isSpc c || c = '-'

/-- Match `word[_\s-]*score\D\x7b0,10\x7d(\d\x7b1,3\x7d)` at the head of
`s` and return the integer captured by the digit group.  The separator
class is disjoint from letters and `\D` is a greedy run that must end at a
digit, so the backtracking search is deterministic. -/
def scorePatAt (word : List Char) (s : List Char) : Option Nat :=
  match matchCI word s with
  | none => none
  | some r1 =>
    match matchCI scoreChars (r1.dropWhile (fun c => sepClass c)) with
    | none => none
    | some r3 =>
      let nd := r3.takeWhile (fun c => ¬ c.isDigit)
      if nd.length ≤ 10 then
        match ((r3.drop nd.length).takeWhile (fun c => c.isDigit)).take 3 with
        | [] => none
        | ds => some (natOfDigits ds)
      else none

/-- `re.search` for the score pattern: leftmost matching position wins.
Model of `_extract_int` (the captured 1–3 digits always convert). -/
def searchScorePat (word : List Char) : List Char → Option Nat
  | [] => none
  | c :: rest =>
    match scorePatAt word (c :: rest) with
    | some n => some n
    | none => searchScorePat word rest

/-- The alternation `(emotional|logical|tie)` tried left to right at a
fixed position; the captured group is returned lowercased (the
alternatives are fixed words, so this is the canonical token). -/
def altWinnerAt (r : List Char) : Option (List Char) :=
  match matchCI emotionalChars r with
  | some _ => some emotionalChars
  | none =>
    match matchCI logicalChars r with
    | some _ => some logicalChars
    | none =>
      match matchCI tieChars r with
      | some _ => some tieChars
      | none => none

/-- Greedy `\D\x7b0,10\x7d` before the alternation: try the largest
permitted skip first and backtrack downwards. -/
def tryWinnerK : Nat → List Char → Option (List Char)
  | 0, r => altWinnerAt r
  | k + 1, r =>
    match altWinnerAt (r.drop (k + 1)) with
    | some w => some w
    | none => tryWinnerK k r

def winnerPatAt (s : List Char) : Option (List Char) :=
  match matchCI winnerChars s with
  | none => none
  | some r =>
    tryWinnerK (min 10 ((r.takeWhile (fun c => ¬ c.isDigit)).length)) r

/-- `_extract_winner`: leftmost `re.search` for
`winner\D\x7b0,10\x7d(emotional|logical|tie)`. -/
def extractWinner : List Char → Option (List Char)
  | [] => none
  | c :: rest =>
    match winnerPatAt (c :: rest) with
    | some w => some w
    | none => extractWinner rest

/-! ### Verdict dictionaries and normalization -/

structure CriteriaDict where
  relevance : Int
  coherence : Int
  evidence : Int
  persuasiveness : Int
  rebuttal : Int
deriving DecidableEq

structure VerdictDict where
  emotional_score : Int
  logical_score : Int
  winner : List Char
  reasoning : List Char
  criteria_scores : CriteriaDict
deriving DecidableEq

/-- Python exceptions that `_parse_verdict_json` and the schema validators
can raise. -/
inductive PyErr where
  | attributeError : PyErr
  | typeError : PyErr
  | validationError : List Char → PyErr
  | genError : List Char → PyErr
deriving DecidableEq

def heurReasonChars : List Char :=
  ("Model did not return strict JSON; applied heuristic parse to extract scores and winner.").data

/-- Python `x or 50` on the result of `_extract_int`: `None` and the falsy
integer `0` both yield the default 50. -/
def pyOrFifty (o : Option Nat) : Int :=
  match o with
  | some d => if d = 0 then 50 else (d : Int)
  | none => 50

def clamp100 (n : Int) : Int := max 0 (min 100 n)

def clamp20 (n : Int) : Int := max 0 (min 20 n)

def validWinnerStr (w : List Char) : Bool :=
  w = emotionalChars || w = logicalChars || w = tieChars

/-- `"emotional" if emo > log else "logical" if log > emo else "tie"`. -/
def scoreWinner (e l : Int) : List Char :=
  if e > l then emotionalChars else if l > e then logicalChars else tieChars

/-- Winner choice of the heuristic branch: higher clamped score wins; on a
tie, fall back to the `winner ...` token scan (`or "tie"`, then the
membership check of the source). -/
def heurWinner (emo log : Int) (cleaned : List Char) : List Char :=
  if emo > log then emotionalChars
  else if log > emo then logicalChars
  else
    let w := (extractWinner cleaned).getD tieChars
    if validWinnerStr w then w else tieChars

/-- The heuristic branch of `_parse_verdict_json` (parse failed even after
repair), applied to the fence-stripped text. -/
def heuristicVerdict (cleaned : List Char) : VerdictDict :=
  let emo := clamp100 (pyOrFifty (searchScorePat emotionalChars cleaned))
  let log := clamp100 (pyOrFifty (searchScorePat logicalChars cleaned))
  ⟨emo, log, heurWinner emo log cleaned, heurReasonChars, ⟨10, 10, 10, 10, 10⟩⟩

/-- Truncation of the decimal `m·10^e` toward zero, as Python `int(...)`
on a float. -/
def truncFlt (m : Int) (e : Int) : Int :=
  if 0 ≤ e then m * ((10 : Int) ^ e.toNat)
  else
    let q : Nat := m.natAbs / 10 ^ (-e).toNat
    if m < 0 then -(q : Int) else (q : Int)

/-- A magnitude beyond every clamp bound of this code (the bounds are 100
and 20).  Python's two-argument `min(b, x)`/`max(0, x)` keep the bound
when the comparison against `x` is false, so `NaN` and `+Infinity` clamp
to the upper bound and `-Infinity` to 0 — exactly the clamp of a value of
this magnitude. -/
def beyondBounds : Int := 1000000000

/-- `int(max(0, min(bound, x)))` on a parsed JSON value: numbers pass
through, booleans coerce (`True == 1`), floats truncate toward zero
(truncation and an integer-bounded clamp commute, so truncating before
the clamp matches Python's clamp-then-`int`), `NaN`/`±Infinity` behave as
values beyond every bound, and anything else raises `TypeError` in the
comparison. -/
def toNumPy : Json → Except PyErr Int
  | Json.num n => Except.ok n
  | Json.flt m e => Except.ok (truncFlt m e)
  | Json.nan => Except.ok beyondBounds
  | Json.inf b => Except.ok (if b then beyondBounds else -beyondBounds)
  | Json.bool true => Except.ok 1
  | Json.bool false => Except.ok 0
  | _ => Except.error PyErr.typeError

/-- Python `bool(...)` falsiness of a parsed JSON value (`0.0` is falsy,
`NaN` and the infinities are truthy). -/
def pyFalsy : Json → Bool
  | Json.null => true
  | Json.bool b => !b
  | Json.num n => n = 0
  | Json.flt m _ => m = 0
  | Json.nan => false
  | Json.inf _ => false
  | Json.str s => s.isEmpty
  | Json.arr xs => xs.isEmpty
  | Json.obj kvs => kvs.isEmpty

def intRepr (n : Int) : List Char := (toString n).data

def commaJoin : List (List Char) → List Char
  | [] => []
  | [x] => x
  | x :: xs => x ++ ',' :: ' ' :: commaJoin xs

/-- Python `repr` of a parsed JSON value, fueled by nesting depth.  String
quoting/escaping inside containers and float formatting are approximated
(always single quotes, no escapes, mantissa-exponent form for floats); no
claim depends on these reprs. -/
def pyReprL : Nat → Json → List Char
  | _, Json.str s => '\'' :: (s ++ ['\''])
  | _, Json.num n => intRepr n
  | _, Json.flt m e => intRepr m ++ 'e' :: intRepr e
  | _, Json.nan => ("nan").data
  | _, Json.inf true => ("inf").data
  | _, Json.inf false => ("-inf").data
  | _, Json.bool true => ("True").data
  | _, Json.bool false => ("False").data
  | _, Json.null => ("None").data
  | 0, _ => []
  | f + 1, Json.arr xs => '[' :: (commaJoin (xs.map (fun x => pyReprL f x)) ++ [']'])
  | f + 1, Json.obj kvs =>
    '\x7b' :: (commaJoin (kvs.map (fun p => '\'' :: (p.1 ++ '\'' :: ':' :: ' ' :: pyReprL f p.2))) ++ ['\x7d'])

/-- Python `str(...)` of a parsed JSON value: a string stays itself,
everything else prints as its repr. -/
def pyStrTop (fuel : Nat) (j : Json) : List Char :=
  match j with
  | Json.str s => s
  | _ => pyReprL fuel j

def emoKey : List Char := ("emotional_score").data
def logKey : List Char := ("logical_score").data
def winnerKey : List Char := ("winner").data
def reasonKey : List Char := ("reasoning").data
def critKey : List Char := ("criteria_scores").data
def relevanceKey : List Char := ("relevance").data
def coherenceKey : List Char := ("coherence").data
def evidenceKey : List Char := ("evidence").data
def persuasivenessKey : List Char := ("persuasiveness").data
def rebuttalKey : List Char := ("rebuttal").data

/-- One criteria sub-score: `int(max(0, min(20, criteria.get(k, 0))))`. -/
def getCrit (kvs2 : List (List Char × Json)) (k : List Char) : Except PyErr Int :=
  match toNumPy ((objGet kvs2 k).getD (Json.num 0)) with
  | Except.error e => Except.error e
  | Except.ok n => Except.ok (clamp20 n)

/-- The five `criteria.get(...)` clamps, in source order; the first raising
lookup propagates. -/
def critFive (kvs2 : List (List Char × Json)) : Except PyErr CriteriaDict :=
  match getCrit kvs2 relevanceKey with
  | Except.error e => Except.error e
  | Except.ok a =>
    match getCrit kvs2 coherenceKey with
    | Except.error e => Except.error e
    | Except.ok b =>
      match getCrit kvs2 evidenceKey with
      | Except.error e => Except.error e
      | Except.ok c =>
        match getCrit kvs2 persuasivenessKey with
        | Except.error e => Except.error e
        | Except.ok d =>
          match getCrit kvs2 rebuttalKey with
          | Except.error e => Except.error e
          | Except.ok e => Except.ok ⟨a, b, c, d, e⟩

/-- `criteria = data.get("criteria_scores") or \x7b\x7d`, then the five
`criteria.get(...)` clamps.  A truthy non-dict raises `AttributeError` at
the first `.get`. -/
def criteriaOf (kvs : List (List Char × Json)) : Except PyErr CriteriaDict :=
  match
    (match objGet kvs critKey with
     | none => Json.obj []
     | some j => if pyFalsy j then Json.obj [] else j) with
  | Json.obj kvs2 => critFive kvs2
  | _ => Except.error PyErr.attributeError

/-- The winner-reconciliation line: a declared winner that is one of the
three valid tokens is kept, anything else (missing, non-string, invalid
token) is recomputed from the clamped scores. -/
def winnerOf (kvs : List (List Char × Json)) (emo log : Int) : List Char :=
  match objGet kvs winnerKey with
  | some (Json.str w) => if validWinnerStr w then w else scoreWinner emo log
  | _ => scoreWinner emo log

/-- Lines 186–208 of `judge.py`: normalize a successfully parsed JSON
value.  A non-dict top level raises `AttributeError` at `data.get`. -/
def normalizeParsed (fuel : Nat) (j : Json) : Except PyErr VerdictDict :=
  match j with
  | Json.obj kvs =>
    match toNumPy ((objGet kvs emoKey).getD (Json.num 0)) with
    | Except.error e => Except.error e
    | Except.ok e0 =>
      match toNumPy ((objGet kvs logKey).getD (Json.num 0)) with
      | Except.error e => Except.error e
      | Except.ok l0 =>
        match criteriaOf kvs with
        | Except.error e => Except.error e
        | Except.ok crit =>
          Except.ok ⟨clamp100 e0, clamp100 l0, winnerOf kvs (clamp100 e0) (clamp100 l0),
            pyStrTop fuel ((objGet kvs reasonKey).getD (Json.str [])), crit⟩
  | _ => Except.error PyErr.attributeError

/-- The candidate string handed to `json.loads`: the first balanced object
of the fence-stripped text, or the whole fence-stripped text. -/
def candidateOf (text : List Char) : List Char :=
  let cleaned := stripFencesJudge text
  (extractFirstObject cleaned).getD cleaned

/-- The parse chain: strict load, then load after trailing-comma repair. -/
def chainResult (text : List Char) : Option Json :=
  match tryLoad (candidateOf text) with
  | some j => some j
  | none => tryLoad (repairJson (candidateOf text))

/-- `JudgeAgent._parse_verdict_json`. -/
def parseVerdictJson (text : List Char) : Except PyErr VerdictDict :=
  match chainResult text with
  | none => Except.ok (heuristicVerdict (stripFencesJudge text))
  | some j => normalizeParsed (text.length + 1) j

/-- `str.startswith`. -/
def startsWith (p l : List Char) : Bool := l.take p.length = p

def nonJsonMark : List Char := ("Model did not return strict JSON").data

/-- The repair-escalation logic of `JudgeAgent.evaluate_debate` (lines
66–92), with the two raw model responses as oracle inputs.  The boolean
records whether the one-shot repair request was issued.  The acceptance
check `isinstance(.., int)` on both scores always holds here because both
parser branches return integer scores, so a parsed repair is always
adopted. -/
def judgeRepairStep (raw repaired : List Char) : Except PyErr (VerdictDict × Bool) :=
  match parseVerdictJson raw with
  | Except.error e => Except.error e
  | Except.ok v =>
    if startsWith nonJsonMark v.reasoning then
      match parseVerdictJson repaired with
      | Except.error e => Except.error e
      | Except.ok rv => Except.ok (rv, true)
    else Except.ok (v, false)

/-! ### Bounds and totality of the verdict extractor -/

def boundedCriteria (c : CriteriaDict) : Prop :=
  0 ≤ c.relevance ∧ c.relevance ≤ 20 ∧ 0 ≤ c.coherence ∧ c.coherence ≤ 20 ∧
    0 ≤ c.evidence ∧ c.evidence ≤ 20 ∧ 0 ≤ c.persuasiveness ∧ c.persuasiveness ≤ 20 ∧
    0 ≤ c.rebuttal ∧ c.rebuttal ≤ 20

def boundedVerdict (v : VerdictDict) : Prop :=
  0 ≤ v.emotional_score ∧ v.emotional_score ≤ 100 ∧
    0 ≤ v.logical_score ∧ v.logical_score ≤ 100 ∧
    (v.winner = emotionalChars ∨ v.winner = logicalChars ∨ v.winner = tieChars) ∧
    boundedCriteria v.criteria_scores

def numericJson : Json → Bool
  | Json.num _ => true
  | Json.flt _ _ => true
  | Json.nan => true
  | Json.inf _ => true
  | Json.bool _ => true
  | _ => false

/-- A present score field must be numeric for the Python clamp not to
raise; a missing field falls back to the numeric default `0`. -/
def fieldNumOK (kvs : List (List Char × Json)) (k : List Char) : Bool :=
  match objGet kvs k with
  | none => true
  | some j => numericJson j

def critFieldOK (kvs : List (List Char × Json)) : Bool :=
  match objGet kvs critKey with
  | none => true
  | some j =>
    if pyFalsy j then true
    else
      match j with
      | Json.obj kvs2 =>
        fieldNumOK kvs2 relevanceKey && fieldNumOK kvs2 coherenceKey &&
          fieldNumOK kvs2 evidenceKey && fieldNumOK kvs2 persuasivenessKey &&
          fieldNumOK kvs2 rebuttalKey
      | _ => false

/-- Parse-chain outcomes on which the normalization code cannot raise: no
parse at all (heuristic branch), or a top-level object whose score and
criteria fields are numeric or missing. -/
def admissibleParse : Option Json → Bool
  | none => true
  | some (Json.obj kvs) => fieldNumOK kvs emoKey && fieldNumOK kvs logKey && critFieldOK kvs
  | some _ => false

theorem clamp100_bounds (n : Int) : 0 ≤ clamp100 n ∧ clamp100 n ≤ 100 :=
  ⟨le_max_left 0 _, max_le (by norm_num) (min_le_left 100 n)⟩

theorem clamp20_bounds (n : Int) : 0 ≤ clamp20 n ∧ clamp20 n ≤ 20 :=
  ⟨le_max_left 0 _, max_le (by norm_num) (min_le_left 20 n)⟩

theorem scoreWinner_mem (e l : Int) :
    scoreWinner e l = emotionalChars ∨ scoreWinner e l = logicalChars ∨
      scoreWinner e l = tieChars := by
  rw [scoreWinner]
  split_ifs with h1 h2
  · exact Or.inl rfl
  · exact Or.inr (Or.inl rfl)
  · exact Or.inr (Or.inr rfl)

theorem winnerOf_mem (kvs : List (List Char × Json)) (e l : Int) :
    winnerOf kvs e l = emotionalChars ∨ winnerOf kvs e l = logicalChars ∨
      winnerOf kvs e l = tieChars := by
  rw [winnerOf]
  cases hw : objGet kvs winnerKey with
  | none => exact scoreWinner_mem e l
  | some j =>
    cases j with
    | str w =>
      by_cases hv : validWinnerStr w = true
      · simp only [hv, if_true]
        have hw3 := hv
        simp only [validWinnerStr, Bool.or_eq_true, decide_eq_true_eq] at hw3
        tauto
      · simp only [Bool.not_eq_true] at hv
        simp only [hv, Bool.false_eq_true, if_false]
        exact scoreWinner_mem e l
    | null => exact scoreWinner_mem e l
    | bool b => exact scoreWinner_mem e l
    | num n => exact scoreWinner_mem e l
    | flt m ex => exact scoreWinner_mem e l
    | nan => exact scoreWinner_mem e l
    | inf b => exact scoreWinner_mem e l
    | arr xs => exact scoreWinner_mem e l
    | obj o => exact scoreWinner_mem e l

theorem heurWinner_mem (e l : Int) (s : List Char) :
    heurWinner e l s = emotionalChars ∨ heurWinner e l s = logicalChars ∨
      heurWinner e l s = tieChars := by
  rw [heurWinner]
  by_cases h1 : e > l
  · simp only [h1, if_true]
    tauto
  · by_cases h2 : l > e
    · simp only [h1, h2, if_true, if_false]
      tauto
    · simp only [h1, h2, if_false]
      by_cases h3 : validWinnerStr ((extractWinner s).getD tieChars) = true
      · simp only [h3, if_true]
        have hw3 := h3
        simp only [validWinnerStr, Bool.or_eq_true, decide_eq_true_eq] at hw3
        tauto
      · simp only [Bool.not_eq_true] at h3
        simp only [h3, Bool.false_eq_true, if_false]
        tauto

theorem heuristicVerdict_bounded (s : List Char) :
    boundedVerdict (heuristicVerdict s) := by
  refine ⟨(clamp100_bounds _).1, (clamp100_bounds _).2, (clamp100_bounds _).1,
    (clamp100_bounds _).2, heurWinner_mem _ _ s, ?_⟩
  show boundedCriteria ⟨10, 10, 10, 10, 10⟩
  norm_num [boundedCriteria]

theorem toNumPy_ok_of_fieldNumOK (kvs : List (List Char × Json)) (k : List Char)
    (h : fieldNumOK kvs k = true) :
    ∃ n, toNumPy ((objGet kvs k).getD (Json.num 0)) = Except.ok n := by
  rw [fieldNumOK] at h
  cases hg : objGet kvs k with
  | none => exact ⟨0, by simp [hg, toNumPy]⟩
  | some j =>
    rw [hg] at h
    cases j with
    | num n => exact ⟨n, by simp [hg, toNumPy]⟩
    | flt m e => exact ⟨truncFlt m e, by simp [hg, toNumPy]⟩
    | nan => exact ⟨beyondBounds, by simp [hg, toNumPy]⟩
    | inf b => exact ⟨if b then beyondBounds else -beyondBounds, by simp [hg, toNumPy]⟩
    | bool b => cases b with
      | true => exact ⟨1, by simp [hg, toNumPy]⟩
      | false => exact ⟨0, by simp [hg, toNumPy]⟩
    | null => simp [numericJson] at h
    | str w => simp [numericJson] at h
    | arr xs => simp [numericJson] at h
    | obj o => simp [numericJson] at h

theorem getCrit_ok (kvs2 : List (List Char × Json)) (k : List Char)
    (h : fieldNumOK kvs2 k = true) :
    ∃ m, getCrit kvs2 k = Except.ok m ∧ 0 ≤ m ∧ m ≤ 20 := by
  obtain ⟨n, hn⟩ := toNumPy_ok_of_fieldNumOK kvs2 k h
  exact ⟨clamp20 n, by simp [getCrit, hn], (clamp20_bounds n).1, (clamp20_bounds n).2⟩

theorem critFive_ok (kvs2 : List (List Char × Json))
    (h1 : fieldNumOK kvs2 relevanceKey = true) (h2 : fieldNumOK kvs2 coherenceKey = true)
    (h3 : fieldNumOK kvs2 evidenceKey = true) (h4 : fieldNumOK kvs2 persuasivenessKey = true)
    (h5 : fieldNumOK kvs2 rebuttalKey = true) :
    ∃ c, critFive kvs2 = Except.ok c ∧ boundedCriteria c := by
  obtain ⟨a, ha, ha1, ha2⟩ := getCrit_ok kvs2 relevanceKey h1
  obtain ⟨b, hb, hb1, hb2⟩ := getCrit_ok kvs2 coherenceKey h2
  obtain ⟨c, hc, hc1, hc2⟩ := getCrit_ok kvs2 evidenceKey h3
  obtain ⟨d, hd, hd1, hd2⟩ := getCrit_ok kvs2 persuasivenessKey h4
  obtain ⟨e, he, he1, he2⟩ := getCrit_ok kvs2 rebuttalKey h5
  refine ⟨⟨a, b, c, d, e⟩, ?_, ?_⟩
  · rw [critFive, ha, hb, hc, hd, he]
  · exact ⟨ha1, ha2, hb1, hb2, hc1, hc2, hd1, hd2, he1, he2⟩

theorem criteriaOf_ok (kvs : List (List Char × Json)) (h : critFieldOK kvs = true) :
    ∃ c, criteriaOf kvs = Except.ok c ∧ boundedCriteria c := by
  have hempty : ∃ c, critFive [] = Except.ok c ∧ boundedCriteria c := by
    refine critFive_ok [] ?_ ?_ ?_ ?_ ?_ <;> rfl
  rw [critFieldOK] at h
  rw [criteriaOf]
  cases hg : objGet kvs critKey with
  | none => exact hempty
  | some j =>
    rw [hg] at h
    dsimp only [] at h ⊢
    by_cases hf : pyFalsy j = true
    · simp only [hf, if_true]
      exact hempty
    · simp only [Bool.not_eq_true] at hf
      simp only [hf, Bool.false_eq_true, if_false] at h ⊢
      cases j with
      | obj kvs2 =>
        simp only [Bool.and_eq_true] at h
        exact critFive_ok kvs2 h.1.1.1.1 h.1.1.1.2 h.1.1.2 h.1.2 h.2
      | null => simp at h
      | bool b => simp at h
      | num n => simp at h
      | flt m e => simp at h
      | nan => simp at h
      | inf b => simp at h
      | str w => simp at h
      | arr xs => simp at h

theorem normalizeParsed_ok (fuel : Nat) (kvs : List (List Char × Json))
    (hemo : fieldNumOK kvs emoKey = true) (hlog : fieldNumOK kvs logKey = true)
    (hcrit : critFieldOK kvs = true) :
    ∃ v, normalizeParsed fuel (Json.obj kvs) = Except.ok v ∧ boundedVerdict v := by
  obtain ⟨e0, he⟩ := toNumPy_ok_of_fieldNumOK kvs emoKey hemo
  obtain ⟨l0, hl⟩ := toNumPy_ok_of_fieldNumOK kvs logKey hlog
  obtain ⟨crit, hcr, hbc⟩ := criteriaOf_ok kvs hcrit
  refine ⟨⟨clamp100 e0, clamp100 l0, winnerOf kvs (clamp100 e0) (clamp100 l0),
    pyStrTop fuel ((objGet kvs reasonKey).getD (Json.str [])), crit⟩, ?_, ?_⟩
  · rw [normalizeParsed, he, hl, hcr]
  · exact ⟨(clamp100_bounds e0).1, (clamp100_bounds e0).2, (clamp100_bounds l0).1,
      (clamp100_bounds l0).2, winnerOf_mem kvs _ _, hbc⟩

/-- Claim C1 counterexample: extraction CAN raise.  On the inputs `5`,
`65.5` and `Infinity` the candidate parses to a top-level JSON number
(int, float and float infinity respectively), and
`data.get("emotional_score", 0)` then raises `AttributeError`, exactly as
in Python. -/
theorem c1_counterexample :
    parseVerdictJson (("5").data) = Except.error PyErr.attributeError ∧
      parseVerdictJson (("65.5").data) = Except.error PyErr.attributeError ∧
      parseVerdictJson (("Infinity").data) = Except.error PyErr.attributeError :=
  ⟨rfl, rfl, rfl⟩

/-- Claim C1, amended: verdict extraction never raises and returns
emotional/logical scores in [0,100], a winner among the three tokens and
five criteria sub-scores in [0,20] — provided the parse chain either fails
entirely (heuristic branch) or yields a top-level JSON object whose score
fields and criteria sub-fields are numeric (int, bool, float, also
`NaN`/`±Infinity`) or missing.  Outside that set the normalization
raises: `AttributeError` on a top-level non-object (e.g. `5`, `65.5`,
`Infinity`, an array) or a truthy non-dict `criteria_scores`, and
`TypeError` on a non-numeric score field such as the string `"70"`. -/
theorem c1_extract_total_bounded (text : List Char)
    (h : admissibleParse (chainResult text) = true) :
    ∃ v, parseVerdictJson text = Except.ok v ∧ boundedVerdict v := by
  rw [parseVerdictJson]
  cases hc : chainResult text with
  | none =>
    exact ⟨heuristicVerdict (stripFencesJudge text), rfl, heuristicVerdict_bounded _⟩
  | some j =>
    rw [hc] at h
    cases j with
    | obj kvs =>
      simp only [admissibleParse, Bool.and_eq_true] at h
      exact normalizeParsed_ok (text.length + 1) kvs h.1.1 h.1.2 h.2
    | null => simp [admissibleParse] at h
    | bool b => simp [admissibleParse] at h
    | num n => simp [admissibleParse] at h
    | flt m e => simp [admissibleParse] at h
    | nan => simp [admissibleParse] at h
    | inf b => simp [admissibleParse] at h
    | str w => simp [admissibleParse] at h
    | arr xs => simp [admissibleParse] at h

/-- Witness for the amended C1 on an input that takes the heuristic
branch. -/
theorem c1_extract_total_bounded_witness :
    admissibleParse (chainResult (("hello").data)) = true ∧
      ∃ v, parseVerdictJson (("hello").data) = Except.ok v ∧ boundedVerdict v :=
  ⟨rfl, c1_extract_total_bounded (("hello").data) rfl⟩

/-! ### Winner reconciliation on the clean-parse path (C4) -/

theorem normalizeParsed_winner_eq (fuel : Nat) (kvs : List (List Char × Json))
    (v : VerdictDict) (h : normalizeParsed fuel (Json.obj kvs) = Except.ok v) :
    v.winner = winnerOf kvs v.emotional_score v.logical_score := by
  rw [normalizeParsed] at h
  cases he : toNumPy ((objGet kvs emoKey).getD (Json.num 0)) with
  | error e => rw [he] at h; exact absurd h (by simp)
  | ok e0 =>
    rw [he] at h
    cases hl : toNumPy ((objGet kvs logKey).getD (Json.num 0)) with
    | error e => rw [hl] at h; exact absurd h (by simp)
    | ok l0 =>
      rw [hl] at h
      cases hc : criteriaOf kvs with
      | error e => rw [hc] at h; exact absurd h (by simp)
      | ok crit =>
        rw [hc] at h
        dsimp only [] at h
        have hv := (Except.ok.injEq _ _).mp h
        rw [← hv]

def scenarioA : List Char :=
  ("\x7b\"emotional_score\": 65, \"logical_score\": 58, \"reasoning\": \"The emotional case was stronger overall in three rounds.\", \"criteria_scores\": \x7b\"relevance\": 15, \"coherence\": 14, \"evidence\": 12, \"persuasiveness\": 13, \"rebuttal\": 11\x7d\x7d").data

def scenarioB : List Char :=
  ("```json\n\x7b\"emotional_score\": 70, \"logical_score\": 70, \"winner\": \"tie\", \"reasoning\": \"Both sides argued with comparable skill and evidence throughout the debate.\", \"criteria_scores\": \x7b\"relevance\": 15, \"coherence\": 15, \"evidence\": 15, \"persuasiveness\": 15, \"rebuttal\": 15\x7d\x7d\n```").data

/-- Claim C4: on the clean-parse path a declared winner that is one of the
three valid tokens is kept, anything else (including a missing field) is
recomputed from the clamped scores (`winnerOf`); scenario A (65/58, winner
missing) yields `emotional`, scenario B (fenced 70/70, declared `tie`)
keeps `tie`. -/
theorem c4_winner_reconciliation :
    (∀ fuel kvs v, normalizeParsed fuel (Json.obj kvs) = Except.ok v →
        v.winner = winnerOf kvs v.emotional_score v.logical_score) ∧
      (parseVerdictJson scenarioA).map
          (fun v => (v.winner, v.emotional_score, v.logical_score)) =
        Except.ok (emotionalChars, 65, 58) ∧
      (parseVerdictJson scenarioB).map
          (fun v => (v.winner, v.emotional_score, v.logical_score)) =
        Except.ok (tieChars, 70, 70) :=
  ⟨normalizeParsed_winner_eq, rfl, rfl⟩

def c4kvs : List (List Char × Json) := [(emoKey, Json.num 65)]

def c4v : VerdictDict := ⟨65, 0, emotionalChars, [], ⟨0, 0, 0, 0, 0⟩⟩

/-- Witness for C4 at a concrete parsed object with `winner` missing. -/
theorem c4_winner_reconciliation_witness :
    normalizeParsed 1 (Json.obj c4kvs) = Except.ok c4v ∧
      c4v.winner = winnerOf c4kvs c4v.emotional_score c4v.logical_score :=
  ⟨rfl, c4_winner_reconciliation.1 1 c4kvs c4v rfl⟩

/-! ### The heuristic fallback on the C5 input -/

def c5input : List Char :=
  ("The winner is logical with scores emo=40 logical=72").data

/-- Claim C5 counterexample: on the claim's input the heuristic does NOT
recover 40/72 — the score patterns require the literal words
`emotional`/`logical` adjacent to `score`, which never match here, so the
emotional score defaults to 50, not 40. -/
theorem c5_counterexample :
    (parseVerdictJson c5input).map (fun v => v.emotional_score) = Except.ok 50 ∧
      (50 : Int) ≠ 40 :=
  ⟨rfl, by decide⟩

/-- Claim C5, amended: the heuristic fallback fires on the claim's input,
but both score patterns fail (no `emotional.../logical...score` adjacency),
so both scores default to 50; the tied scores send winner recovery to the
`winner ... logical` token scan, which yields `logical`, and the reasoning
is the fixed heuristic marker. -/
theorem c5_heuristic_on_input :
    parseVerdictJson c5input =
      Except.ok ⟨50, 50, logicalChars, heurReasonChars, ⟨10, 10, 10, 10, 10⟩⟩ := rfl

/-! ### The zero-score default of the heuristic (C6) -/

def c6input : List Char := ("emotional score 0 and logical score 70").data

/-- Claim C6 counterexample: the pattern DOES match digit group `0` on this
input, yet the recovered emotional score is 50, not 0 — `_extract_int(...)
or 50` treats the falsy integer 0 as missing. -/
theorem c6_counterexample :
    searchScorePat emotionalChars (stripFencesJudge c6input) = some 0 ∧
      (parseVerdictJson c6input).map (fun v => v.emotional_score) = Except.ok 50 ∧
      (50 : Int) ≠ 0 :=
  ⟨rfl, rfl, by decide⟩

/-- Claim C6, amended: in the heuristic fallback the default 50 is applied
when the pattern is not found OR when the matched digits equal 0 (Python
`or` falsiness); a matched nonzero digit group yields its value clamped to
[0,100]. -/
theorem c6_heuristic_zero_default :
    (∀ s d, searchScorePat emotionalChars s = some d → d ≠ 0 →
        (heuristicVerdict s).emotional_score = clamp100 (d : Int)) ∧
      (∀ s, searchScorePat emotionalChars s = some 0 →
        (heuristicVerdict s).emotional_score = 50) ∧
      (∀ s, searchScorePat emotionalChars s = none →
        (heuristicVerdict s).emotional_score = 50) ∧
      (∀ s d, searchScorePat logicalChars s = some d → d ≠ 0 →
        (heuristicVerdict s).logical_score = clamp100 (d : Int)) ∧
      (∀ s, searchScorePat logicalChars s = some 0 →
        (heuristicVerdict s).logical_score = 50) ∧
      (∀ s, searchScorePat logicalChars s = none →
        (heuristicVerdict s).logical_score = 50) := by
  refine ⟨?_, ?_, ?_, ?_, ?_, ?_⟩
  · intro s d h hd
    show clamp100 (pyOrFifty (searchScorePat emotionalChars s)) = clamp100 (d : Int)
    rw [h, pyOrFifty]
    simp [hd]
  · intro s h
    show clamp100 (pyOrFifty (searchScorePat emotionalChars s)) = 50
    rw [h]
    rfl
  · intro s h
    show clamp100 (pyOrFifty (searchScorePat emotionalChars s)) = 50
    rw [h]
    rfl
  · intro s d h hd
    show clamp100 (pyOrFifty (searchScorePat logicalChars s)) = clamp100 (d : Int)
    rw [h, pyOrFifty]
    simp [hd]
  · intro s h
    show clamp100 (pyOrFifty (searchScorePat logicalChars s)) = 50
    rw [h]
    rfl
  · intro s h
    show clamp100 (pyOrFifty (searchScorePat logicalChars s)) = 50
    rw [h]
    rfl

/-- Witness for the amended C6: on the counterexample input the matched 0
gives 50 and the matched 70 gives 70. -/
theorem c6_heuristic_zero_default_witness :
    searchScorePat emotionalChars (stripFencesJudge c6input) = some 0 ∧
      (heuristicVerdict (stripFencesJudge c6input)).emotional_score = 50 ∧
      searchScorePat logicalChars (stripFencesJudge c6input) = some 70 ∧
      (heuristicVerdict (stripFencesJudge c6input)).logical_score = clamp100 (70 : Int) :=
  ⟨rfl, c6_heuristic_zero_default.2.1 (stripFencesJudge c6input) rfl, rfl,
    c6_heuristic_zero_default.2.2.2.1 (stripFencesJudge c6input) 70 rfl (by decide)⟩

/-! ### The in-band degraded-extraction signal (C10) -/

def c10reason : List Char :=
  ("Model did not return strict JSON at first, so the judge re-checked the transcript carefully.").data

def c10raw : List Char :=
  ("\x7b\"emotional_score\": 10, \"logical_score\": 20, \"winner\": \"logical\", \"reasoning\": \"Model did not return strict JSON at first, so the judge re-checked the transcript carefully.\", \"criteria_scores\": \x7b\x7d\x7d").data

def c10rep : List Char :=
  ("\x7b\"emotional_score\": 1, \"logical_score\": 2\x7d").data

def c10v : VerdictDict := ⟨10, 20, logicalChars, c10reason, ⟨0, 0, 0, 0, 0⟩⟩

def c10repv : VerdictDict := ⟨1, 2, logicalChars, [], ⟨0, 0, 0, 0, 0⟩⟩

/-- Claim C10: the heuristic branch always returns the exact fixed
reasoning string; `evaluate_debate` issues the one-shot repair exactly when
the first parse's reasoning starts with the prefix
`Model did not return strict JSON` (in which case the outcome is the
reparse of the repair response, adopted unconditionally); and a cleanly
parsed verdict whose model-supplied reasoning begins with that prefix also
triggers the repair escalation (`c10raw`). -/
theorem c10_degraded_signal :
    (∀ s, (heuristicVerdict s).reasoning = heurReasonChars) ∧
      (∀ raw repaired v, parseVerdictJson raw = Except.ok v →
        (startsWith nonJsonMark v.reasoning = false →
            judgeRepairStep raw repaired = Except.ok (v, false)) ∧
          (startsWith nonJsonMark v.reasoning = true →
            judgeRepairStep raw repaired =
              (parseVerdictJson repaired).map (fun rv => (rv, true)))) ∧
      startsWith nonJsonMark heurReasonChars = true ∧
      parseVerdictJson c10raw = Except.ok c10v ∧
      c10v.reasoning ≠ heurReasonChars ∧
      startsWith nonJsonMark c10v.reasoning = true ∧
      judgeRepairStep c10raw c10rep = Except.ok (c10repv, true) := by
  refine ⟨fun s => rfl, ?_, rfl, rfl, by decide, rfl, rfl⟩
  intro raw repaired v h
  constructor
  · intro hs
    rw [judgeRepairStep, h]
    simp only [hs, Bool.false_eq_true, if_false]
  · intro hs
    rw [judgeRepairStep, h]
    simp only [hs, if_true]
    cases hr : parseVerdictJson repaired with
    | error e => rfl
    | ok rv => rfl

/-- Witness for C10 on a heuristic first parse: the repair is issued and
the reparse of the repair response is adopted. -/
theorem c10_degraded_signal_witness :
    parseVerdictJson (("hello").data) =
        Except.ok ⟨50, 50, tieChars, heurReasonChars, ⟨10, 10, 10, 10, 10⟩⟩ ∧
      ((startsWith nonJsonMark
            (VerdictDict.mk 50 50 tieChars heurReasonChars ⟨10, 10, 10, 10, 10⟩).reasoning = false →
          judgeRepairStep (("hello").data) c10rep =
            Except.ok (⟨50, 50, tieChars, heurReasonChars, ⟨10, 10, 10, 10, 10⟩⟩, false)) ∧
        (startsWith nonJsonMark
            (VerdictDict.mk 50 50 tieChars heurReasonChars ⟨10, 10, 10, 10, 10⟩).reasoning = true →
          judgeRepairStep (("hello").data) c10rep =
            (parseVerdictJson c10rep).map (fun rv => (rv, true)))) :=
  ⟨rfl, c10_degraded_signal.2.1 (("hello").data) c10rep
    ⟨50, 50, tieChars, heurReasonChars, ⟨10, 10, 10, 10, 10⟩⟩ rfl⟩

/-! ### Pydantic schemas (`backend/models/schemas.py`)

Construction of a pydantic model is modelled as a function returning
`Except PyErr`; validators run in field-declaration order, then the model
validator. -/

def WORD_LIMIT_MIN : Nat := 250
def WORD_LIMIT_MAX : Nat := 350
def NUM_ROUNDS : Nat := 3

/-- `v.strip().lower()` as used by the field validators. -/
def lowerStrip (s : List Char) : List Char := (pyStrip s).map Char.toLower

structure CaseInput where
  description : List Char
  title : List Char
deriving DecidableEq

/-- `CaseInput`: description at least 10 characters, title at least 3. -/
def mkCaseInput (description title : List Char) : Except PyErr CaseInput :=
  if description.length < 10 then Except.error (PyErr.validationError (("description").data))
  else if title.length < 3 then Except.error (PyErr.validationError (("title").data))
  else Except.ok ⟨description, title⟩

structure Argument where
  lawyer : List Char
  round_number : Int
  content : List Char
  word_count : Int
deriving DecidableEq

/-- `Argument`: lawyer token check (strip/lower), round range, content
length, then the model validator recomputes `word_count` from the content
(silently overwriting the supplied value) and enforces the 250–350 band. -/
def mkArgument (lawyer : List Char) (roundNumber : Int) (content : List Char)
    (_wordCountIn : Int) : Except PyErr Argument :=
  let lv := lowerStrip lawyer
  if ¬ (lv = emotionalChars ∨ lv = logicalChars) then
    Except.error (PyErr.validationError (("lawyer").data))
  else if ¬ (1 ≤ roundNumber ∧ roundNumber ≤ (NUM_ROUNDS : Int)) then
    Except.error (PyErr.validationError (("round_number").data))
  else if content.length < 20 then
    Except.error (PyErr.validationError (("content").data))
  else if ¬ ((WORD_LIMIT_MIN : Int) ≤ (wordCount content : Int) ∧
      (wordCount content : Int) ≤ (WORD_LIMIT_MAX : Int)) then
    Except.error (PyErr.validationError (("word_count").data))
  else Except.ok ⟨lv, roundNumber, content, (wordCount content : Int)⟩

structure Verdict where
  emotional_score : Int
  logical_score : Int
  winner : List Char
  reasoning : List Char
  criteria_scores : CriteriaDict
deriving DecidableEq

/-- `Verdict(**verdict_dict)`: score ranges, winner token (strip/lower),
reasoning length at least 30 characters, criteria keys present (always, in
this representation) with each value in [0,20].  The reasoning word-count
model validator in the source checks nothing. -/
def mkVerdict (d : VerdictDict) : Except PyErr Verdict :=
  if ¬ (0 ≤ d.emotional_score ∧ d.emotional_score ≤ 100) then
    Except.error (PyErr.validationError (("emotional_score").data))
  else if ¬ (0 ≤ d.logical_score ∧ d.logical_score ≤ 100) then
    Except.error (PyErr.validationError (("logical_score").data))
  else
    let wv := lowerStrip d.winner
    if ¬ (wv = emotionalChars ∨ wv = logicalChars ∨ wv = tieChars) then
      Except.error (PyErr.validationError (("winner").data))
    else if d.reasoning.length < 30 then
      Except.error (PyErr.validationError (("reasoning").data))
    else if ¬ (0 ≤ d.criteria_scores.relevance ∧ d.criteria_scores.relevance ≤ 20 ∧
        0 ≤ d.criteria_scores.coherence ∧ d.criteria_scores.coherence ≤ 20 ∧
        0 ≤ d.criteria_scores.evidence ∧ d.criteria_scores.evidence ≤ 20 ∧
        0 ≤ d.criteria_scores.persuasiveness ∧ d.criteria_scores.persuasiveness ≤ 20 ∧
        0 ≤ d.criteria_scores.rebuttal ∧ d.criteria_scores.rebuttal ≤ 20) then
      Except.error (PyErr.validationError (("criteria_scores").data))
    else Except.ok ⟨d.emotional_score, d.logical_score, wv, d.reasoning, d.criteria_scores⟩

structure DebateTranscript where
  debate_id : List Char
  caseInfo : CaseInput
  rounds : List (List Argument)
  verdict : Verdict
  timestamp : List Char
  status : List Char
deriving DecidableEq

/-- `DebateTranscript`: the only validator that runs is the status check.
The `_rounds_shape` validator of the source is declared on `DebateRoles`
with `check_fields=False`, and `DebateRoles` has no `rounds` field, so it
never fires: rounds of any shape are accepted. -/
def mkDebateTranscript (debateId : List Char) (caseInfo : CaseInput)
    (rounds : List (List Argument)) (verdict : Verdict)
    (timestamp status : List Char) : Except PyErr DebateTranscript :=
  let sv := lowerStrip status
  if ¬ (sv = ("in_progress").data ∨ sv = ("complete").data ∨ sv = ("failed").data) then
    Except.error (PyErr.validationError (("status").data))
  else Except.ok ⟨debateId, caseInfo, rounds, verdict, timestamp, sv⟩

/-! ### The coordinator (`backend/utils/debate_coordinator.py`) -/

/-- `_retry`: up to `attempts` calls of the operation (whose outcome may
vary with the 1-based attempt index); the first success is returned, and
after the last failed attempt the last error is raised.  `attempts = 0`
would trip the `assert last_err is not None`. -/
def retryRun {A : Type} (f : Nat → Except PyErr A) : Nat → Nat → Except PyErr A
  | _, 0 => Except.error (PyErr.genError (("assert last_err is not None").data))
  | start, 1 => f start
  | start, n + 2 =>
    match f start with
    | Except.ok a => Except.ok a
    | Except.error _ => retryRun f (start + 1) (n + 1)

def retryOp {A : Type} (f : Nat → Except PyErr A) (attempts : Nat) : Except PyErr A :=
  retryRun f 1 attempts

/-- The oracles a debate run consumes: the six lawyer generation
operations (already composed with their internal normalization, as the
coordinator sees them) and the judge evaluation.  Each takes its explicit
arguments as passed by the coordinator plus the retry attempt index. -/
structure AgentOps where
  emoOpening : List Char → Nat → Except PyErr (List Char)
  logOpening : List Char → Nat → Except PyErr (List Char)
  emoCounter : List Char → List Char → Nat → Except PyErr (List Char)
  logCounter : List Char → List Char → Nat → Except PyErr (List Char)
  emoRebuttal : List Char → List Char → List Char → Nat → Except PyErr (List Char)
  logRebuttal : List Char → List Char → List Char → Nat → Except PyErr (List Char)
  judgeEval : List Char → List (List Char) → Nat → Except PyErr VerdictDict

inductive CallLabel where
  | emoR1 : CallLabel
  | logR1 : CallLabel
  | emoR2 : CallLabel
  | logR2 : CallLabel
  | emoR3 : CallLabel
  | logR3 : CallLabel
  | judgeV : CallLabel
deriving DecidableEq

/-- One retried coordinator call, with the context the coordinator passed:
opponent/own previous arguments for lawyers, the flattened argument list
for the judge. -/
structure CallRec where
  label : CallLabel
  caseDesc : List Char
  opponent : List Char
  yours : List Char
  judgeArgs : List (List Char)
deriving DecidableEq

/-- `DebateCoordinator.run_debate`, instrumented with the ordered trace of
retried calls.  The uuid-based debate id and the wall-clock timestamp are
external inputs modelled as fixed placeholders.  Note that no exception is
caught here: a retry-exhausted stage propagates its error to the caller
(the trace records which calls had been issued). -/
def runDebate (ag : AgentOps) (caseInfo : CaseInput) :
    Except PyErr DebateTranscript × List CallRec :=
  let d := caseInfo.description
  let c1 : CallRec := ⟨CallLabel.emoR1, d, [], [], []⟩
  let c2 : CallRec := ⟨CallLabel.logR1, d, [], [], []⟩
  match retryOp (ag.emoOpening d) 3 with
  | Except.error e => (Except.error e, [c1])
  | Except.ok emoOpen =>
    match retryOp (ag.logOpening d) 3 with
    | Except.error e => (Except.error e, [c1, c2])
    | Except.ok logOpen =>
      match mkArgument emotionalChars 1 emoOpen 0 with
      | Except.error e => (Except.error e, [c1, c2])
      | Except.ok a1 =>
        match mkArgument logicalChars 1 logOpen 0 with
        | Except.error e => (Except.error e, [c1, c2])
        | Except.ok a2 =>
          let c3 : CallRec := ⟨CallLabel.emoR2, d, logOpen, [], []⟩
          let c4 : CallRec := ⟨CallLabel.logR2, d, emoOpen, [], []⟩
          match retryOp (ag.emoCounter d logOpen) 3 with
          | Except.error e => (Except.error e, [c1, c2, c3])
          | Except.ok emoCtr =>
            match retryOp (ag.logCounter d emoOpen) 3 with
            | Except.error e => (Except.error e, [c1, c2, c3, c4])
            | Except.ok logCtr =>
              match mkArgument emotionalChars 2 emoCtr 0 with
              | Except.error e => (Except.error e, [c1, c2, c3, c4])
              | Except.ok a3 =>
                match mkArgument logicalChars 2 logCtr 0 with
                | Except.error e => (Except.error e, [c1, c2, c3, c4])
                | Except.ok a4 =>
                  let c5 : CallRec := ⟨CallLabel.emoR3, d, logCtr, emoCtr, []⟩
                  let c6 : CallRec := ⟨CallLabel.logR3, d, emoCtr, logCtr, []⟩
                  match retryOp (ag.emoRebuttal d logCtr emoCtr) 3 with
                  | Except.error e => (Except.error e, [c1, c2, c3, c4, c5])
                  | Except.ok emoReb =>
                    match retryOp (ag.logRebuttal d emoCtr logCtr) 3 with
                    | Except.error e => (Except.error e, [c1, c2, c3, c4, c5, c6])
                    | Except.ok logReb =>
                      match mkArgument emotionalChars 3 emoReb 0 with
                      | Except.error e => (Except.error e, [c1, c2, c3, c4, c5, c6])
                      | Except.ok a5 =>
                        match mkArgument logicalChars 3 logReb 0 with
                        | Except.error e => (Except.error e, [c1, c2, c3, c4, c5, c6])
                        | Except.ok a6 =>
                          let allTexts := [a1.content, a2.content, a3.content,
                            a4.content, a5.content, a6.content]
                          let c7 : CallRec := ⟨CallLabel.judgeV, d, [], [], allTexts⟩
                          match retryOp (ag.judgeEval d allTexts) 3 with
                          | Except.error e =>
                            (Except.error e, [c1, c2, c3, c4, c5, c6, c7])
                          | Except.ok vd =>
                            match mkVerdict vd with
                            | Except.error e =>
                              (Except.error e, [c1, c2, c3, c4, c5, c6, c7])
                            | Except.ok v =>
                              match mkDebateTranscript (("deb-model").data) caseInfo
                                  [[a1, a2], [a3, a4], [a5, a6]] v (("ts").data)
                                  (("complete").data) with
                              | Except.error e =>
                                (Except.error e, [c1, c2, c3, c4, c5, c6, c7])
                              | Except.ok t =>
                                (Except.ok t, [c1, c2, c3, c4, c5, c6, c7])

/-- What the coordinator's caller (`_run_debate_bg` in `app.py`) stores
about a debate when `run_debate` raises. -/
structure StoredRecord where
  status : List Char
  reasoning : List Char
deriving DecidableEq

/-- `str(e)` of a raised exception, modelled as the carried message (class
name for the argument-free kinds). -/
def pyErrMsg : PyErr → List Char
  | PyErr.attributeError => ("AttributeError").data
  | PyErr.typeError => ("TypeError").data
  | PyErr.validationError m => m
  | PyErr.genError m => m

/-- The except-branch of `_run_debate_bg`: the persisted record is marked
`failed` and the error message is embedded in the verdict reasoning. -/
def markFailedRecord (e : PyErr) : StoredRecord :=
  ⟨("failed").data, (("Debate generation failed: ").data) ++ pyErrMsg e⟩

/-! ### Concrete debate fixtures -/

/-- A 250-word text (each word one character), satisfying the Argument
band. -/
def w250 : List Char := joinWords (List.replicate 250 ['w'])

def reason0 : List Char :=
  ("The emotional side presented the stronger case overall.").data

def vd0 : VerdictDict := ⟨60, 50, emotionalChars, reason0, ⟨12, 12, 12, 12, 12⟩⟩

def v0 : Verdict := ⟨60, 50, emotionalChars, reason0, ⟨12, 12, 12, 12, 12⟩⟩

def case0 : CaseInput :=
  ⟨("A dispute over a broken contract between two parties.").data,
    ("Contract dispute").data⟩

def errBoom : PyErr := PyErr.genError (("boom").data)

/-- Oracles for a fully successful run: every generation returns `w250`,
the judge returns `vd0`. -/
def okAgents : AgentOps :=
  ⟨fun _ _ => Except.ok w250, fun _ _ => Except.ok w250,
    fun _ _ _ => Except.ok w250, fun _ _ _ => Except.ok w250,
    fun _ _ _ _ => Except.ok w250, fun _ _ _ _ => Except.ok w250,
    fun _ _ _ => Except.ok vd0⟩

/-- Oracles where the Round-2 logical counter fails on every attempt. -/
def failAgents : AgentOps :=
  ⟨fun _ _ => Except.ok w250, fun _ _ => Except.ok w250,
    fun _ _ _ => Except.ok w250, fun _ _ _ => Except.error errBoom,
    fun _ _ _ _ => Except.ok w250, fun _ _ _ _ => Except.ok w250,
    fun _ _ _ => Except.ok vd0⟩

def argE1 : Argument := ⟨emotionalChars, 1, w250, 250⟩
def argL1 : Argument := ⟨logicalChars, 1, w250, 250⟩
def argE2 : Argument := ⟨emotionalChars, 2, w250, 250⟩
def argL2 : Argument := ⟨logicalChars, 2, w250, 250⟩
def argE3 : Argument := ⟨emotionalChars, 3, w250, 250⟩
def argL3 : Argument := ⟨logicalChars, 3, w250, 250⟩

def okT : DebateTranscript :=
  ⟨("deb-model").data, case0, [[argE1, argL1], [argE2, argL2], [argE3, argL3]],
    v0, ("ts").data, ("complete").data⟩

def okCalls : List CallRec :=
  [⟨CallLabel.emoR1, case0.description, [], [], []⟩,
   ⟨CallLabel.logR1, case0.description, [], [], []⟩,
   ⟨CallLabel.emoR2, case0.description, w250, [], []⟩,
   ⟨CallLabel.logR2, case0.description, w250, [], []⟩,
   ⟨CallLabel.emoR3, case0.description, w250, w250, []⟩,
   ⟨CallLabel.logR3, case0.description, w250, w250, []⟩,
   ⟨CallLabel.judgeV, case0.description, [], [], [w250, w250, w250, w250, w250, w250]⟩]

/-! ### Helper lemmas about the schema constructors -/

theorem mkArgument_ok_content (l : List Char) (n : Int) (c : List Char) (w : Int)
    (a : Argument) (h : mkArgument l n c w = Except.ok a) : a.content = c := by
  rw [mkArgument] at h
  split_ifs at h with h1 h2 h3 h4
  injection h with h5
  rw [← h5]

theorem mkDebateTranscript_complete (i : List Char) (ci : CaseInput)
    (r : List (List Argument)) (v : Verdict) (ts : List Char) :
    mkDebateTranscript i ci r v ts (("complete").data) =
      Except.ok ⟨i, ci, r, v, ts, ("complete").data⟩ := rfl

/-! ### Claim C9: the rounds-shape validator never runs -/

def t4bad : DebateTranscript :=
  ⟨("d1").data, case0, [[], [], [], []], v0, ("ts").data, ("complete").data⟩

def t3bad : DebateTranscript :=
  ⟨("d2").data, case0, [[argE1, argE1, argE1], [], []], v0, ("ts").data, ("complete").data⟩

/-- Claim C9 (code bug): `DebateTranscript` construction accepts a rounds
list of four rounds, and a round with three arguments of the same agent
kind — the `_rounds_shape` validator is declared on `DebateRoles` (which
has no `rounds` field, under `check_fields=False`) and therefore never
fires, contrary to its own comment. -/
theorem c9_rounds_shape_unchecked :
    mkDebateTranscript (("d1").data) case0 [[], [], [], []] v0 (("ts").data)
        (("complete").data) = Except.ok t4bad ∧
      t4bad.rounds.length = 4 ∧ t4bad.status = ("complete").data ∧
      mkDebateTranscript (("d2").data) case0 [[argE1, argE1, argE1], [], []] v0
        (("ts").data) (("complete").data) = Except.ok t3bad ∧
      t3bad.rounds.map List.length = [3, 0, 0] :=
  ⟨rfl, rfl, rfl, rfl, rfl⟩

/-! ### Claim C3: retry exhaustion raises out of `run_debate` -/

/-- Claim C3 counterexample: when the Round-2 logical call exhausts its
retry budget, `run_debate` does NOT return a failed Transcript — it
propagates the error to its caller.  Only the four calls up to and
including the failing one were issued (Round 3 and the judge never run). -/
theorem c3_counterexample :
    runDebate failAgents case0 =
      (Except.error errBoom,
        [⟨CallLabel.emoR1, case0.description, [], [], []⟩,
         ⟨CallLabel.logR1, case0.description, [], [], []⟩,
         ⟨CallLabel.emoR2, case0.description, w250, [], []⟩,
         ⟨CallLabel.logR2, case0.description, w250, [], []⟩]) := rfl

/-- Claim C3, amended: if Round 1 and the emotional counter succeed with
valid arguments and the Round-2 logical call exhausts its retry budget,
`run_debate` raises that last error to its caller without executing Round
3 or the judge; it is the HTTP layer's background wrapper that marks the
persisted record `failed` and embeds the message in the verdict reasoning
(previously produced rounds are not attached to that record). -/
theorem c3_retry_exhaustion_raises (ag : AgentOps) (caseInfo : CaseInput) (e : PyErr)
    (eo lo ec : List Char) (a1 a2 : Argument)
    (h1 : retryOp (ag.emoOpening caseInfo.description) 3 = Except.ok eo)
    (h2 : retryOp (ag.logOpening caseInfo.description) 3 = Except.ok lo)
    (h3 : mkArgument emotionalChars 1 eo 0 = Except.ok a1)
    (h4 : mkArgument logicalChars 1 lo 0 = Except.ok a2)
    (h5 : retryOp (ag.emoCounter caseInfo.description lo) 3 = Except.ok ec)
    (h6 : retryOp (ag.logCounter caseInfo.description eo) 3 = Except.error e) :
    runDebate ag caseInfo =
      (Except.error e,
        [⟨CallLabel.emoR1, caseInfo.description, [], [], []⟩,
         ⟨CallLabel.logR1, caseInfo.description, [], [], []⟩,
         ⟨CallLabel.emoR2, caseInfo.description, lo, [], []⟩,
         ⟨CallLabel.logR2, caseInfo.description, eo, [], []⟩]) ∧
      (markFailedRecord e).status = ("failed").data ∧
      (markFailedRecord e).reasoning = (("Debate generation failed: ").data) ++ pyErrMsg e := by
  refine ⟨?_, rfl, rfl⟩
  simp only [runDebate]
  rw [h1]
  dsimp only []
  rw [h2]
  dsimp only []
  rw [h3]
  dsimp only []
  rw [h4]
  dsimp only []
  rw [h5]
  dsimp only []
  rw [h6]

/-- Witness for the amended C3 with the concrete failing oracles. -/
theorem c3_retry_exhaustion_raises_witness :
    (retryOp (failAgents.logCounter case0.description w250) 3 = Except.error errBoom) ∧
      (runDebate failAgents case0 =
        (Except.error errBoom,
          [⟨CallLabel.emoR1, case0.description, [], [], []⟩,
           ⟨CallLabel.logR1, case0.description, [], [], []⟩,
           ⟨CallLabel.emoR2, case0.description, w250, [], []⟩,
           ⟨CallLabel.logR2, case0.description, w250, [], []⟩]) ∧
        (markFailedRecord errBoom).status = ("failed").data ∧
        (markFailedRecord errBoom).reasoning =
          (("Debate generation failed: ").data) ++ pyErrMsg errBoom) :=
  ⟨rfl, c3_retry_exhaustion_raises failAgents case0 errBoom w250 w250 w250 argE1 argL1
    rfl rfl rfl rfl rfl rfl⟩

/-! ### Claim C7: round cross-referencing -/

/-- Claim C7: in every successful run, the trace shows that each agent's
Round-2 counter was invoked with exactly the other agent's Round-1 content
as opponent context, and each Round-3 rebuttal with the opponent's Round-2
content plus the agent's own Round-2 content; the judge receives the six
contents in the fixed order. -/
theorem c7_round_context (ag : AgentOps) (caseInfo : CaseInput) (t : DebateTranscript)
    (tr : List CallRec) (h : runDebate ag caseInfo = (Except.ok t, tr)) :
    ∃ r1e r1l r2e r2l r3e r3l : Argument,
      t.rounds = [[r1e, r1l], [r2e, r2l], [r3e, r3l]] ∧
      tr = [⟨CallLabel.emoR1, caseInfo.description, [], [], []⟩,
            ⟨CallLabel.logR1, caseInfo.description, [], [], []⟩,
            ⟨CallLabel.emoR2, caseInfo.description, r1l.content, [], []⟩,
            ⟨CallLabel.logR2, caseInfo.description, r1e.content, [], []⟩,
            ⟨CallLabel.emoR3, caseInfo.description, r2l.content, r2e.content, []⟩,
            ⟨CallLabel.logR3, caseInfo.description, r2e.content, r2l.content, []⟩,
            ⟨CallLabel.judgeV, caseInfo.description, [], [],
              [r1e.content, r1l.content, r2e.content, r2l.content,
                r3e.content, r3l.content]⟩] := by
  simp only [runDebate] at h
  cases h1 : retryOp (ag.emoOpening caseInfo.description) 3 with
  | error e => rw [h1] at h; exact Except.noConfusion (congrArg Prod.fst h)
  | ok eo =>
  rw [h1] at h
  dsimp only [] at h
  cases h2 : retryOp (ag.logOpening caseInfo.description) 3 with
  | error e => rw [h2] at h; exact Except.noConfusion (congrArg Prod.fst h)
  | ok lo =>
  rw [h2] at h
  dsimp only [] at h
  cases h3 : mkArgument emotionalChars 1 eo 0 with
  | error e => rw [h3] at h; exact Except.noConfusion (congrArg Prod.fst h)
  | ok a1 =>
  rw [h3] at h
  dsimp only [] at h
  cases h4 : mkArgument logicalChars 1 lo 0 with
  | error e => rw [h4] at h; exact Except.noConfusion (congrArg Prod.fst h)
  | ok a2 =>
  rw [h4] at h
  dsimp only [] at h
  cases h5 : retryOp (ag.emoCounter caseInfo.description lo) 3 with
  | error e => rw [h5] at h; exact Except.noConfusion (congrArg Prod.fst h)
  | ok ec =>
  rw [h5] at h
  dsimp only [] at h
  cases h6 : retryOp (ag.logCounter caseInfo.description eo) 3 with
  | error e => rw [h6] at h; exact Except.noConfusion (congrArg Prod.fst h)
  | ok lc =>
  rw [h6] at h
  dsimp only [] at h
  cases h7 : mkArgument emotionalChars 2 ec 0 with
  | error e => rw [h7] at h; exact Except.noConfusion (congrArg Prod.fst h)
  | ok a3 =>
  rw [h7] at h
  dsimp only [] at h
  cases h8 : mkArgument logicalChars 2 lc 0 with
  | error e => rw [h8] at h; exact Except.noConfusion (congrArg Prod.fst h)
  | ok a4 =>
  rw [h8] at h
  dsimp only [] at h
  cases h9 : retryOp (ag.emoRebuttal caseInfo.description lc ec) 3 with
  | error e => rw [h9] at h; exact Except.noConfusion (congrArg Prod.fst h)
  | ok er =>
  rw [h9] at h
  dsimp only [] at h
  cases h10 : retryOp (ag.logRebuttal caseInfo.description ec lc) 3 with
  | error e => rw [h10] at h; exact Except.noConfusion (congrArg Prod.fst h)
  | ok lr =>
  rw [h10] at h
  dsimp only [] at h
  cases h11 : mkArgument emotionalChars 3 er 0 with
  | error e => rw [h11] at h; exact Except.noConfusion (congrArg Prod.fst h)
  | ok a5 =>
  rw [h11] at h
  dsimp only [] at h
  cases h12 : mkArgument logicalChars 3 lr 0 with
  | error e => rw [h12] at h; exact Except.noConfusion (congrArg Prod.fst h)
  | ok a6 =>
  rw [h12] at h
  dsimp only [] at h
  cases h13 : retryOp (ag.judgeEval caseInfo.description
      [a1.content, a2.content, a3.content, a4.content, a5.content, a6.content]) 3 with
  | error e => rw [h13] at h; exact Except.noConfusion (congrArg Prod.fst h)
  | ok vd =>
  rw [h13] at h
  dsimp only [] at h
  cases h14 : mkVerdict vd with
  | error e => rw [h14] at h; exact Except.noConfusion (congrArg Prod.fst h)
  | ok v =>
  rw [h14] at h
  dsimp only [] at h
  rw [mkDebateTranscript_complete] at h
  simp only [Prod.mk.injEq, Except.ok.injEq] at h
  obtain ⟨ht, htr⟩ := h
  subst ht
  subst htr
  refine ⟨a1, a2, a3, a4, a5, a6, rfl, ?_⟩
  rw [mkArgument_ok_content _ _ _ _ _ h3, mkArgument_ok_content _ _ _ _ _ h4,
    mkArgument_ok_content _ _ _ _ _ h7, mkArgument_ok_content _ _ _ _ _ h8,
    mkArgument_ok_content _ _ _ _ _ h11, mkArgument_ok_content _ _ _ _ _ h12]

/-- Witness for C7 on a fully successful concrete run. -/
theorem c7_round_context_witness :
    runDebate okAgents case0 = (Except.ok okT, okCalls) ∧
      ∃ r1e r1l r2e r2l r3e r3l : Argument,
        okT.rounds = [[r1e, r1l], [r2e, r2l], [r3e, r3l]] ∧
        okCalls = [⟨CallLabel.emoR1, case0.description, [], [], []⟩,
          ⟨CallLabel.logR1, case0.description, [], [], []⟩,
          ⟨CallLabel.emoR2, case0.description, r1l.content, [], []⟩,
          ⟨CallLabel.logR2, case0.description, r1e.content, [], []⟩,
          ⟨CallLabel.emoR3, case0.description, r2l.content, r2e.content, []⟩,
          ⟨CallLabel.logR3, case0.description, r2e.content, r2l.content, []⟩,
          ⟨CallLabel.judgeV, case0.description, [], [],
            [r1e.content, r1l.content, r2e.content, r2l.content,
              r3e.content, r3l.content]⟩] :=
  ⟨rfl, c7_round_context okAgents case0 okT okCalls rfl⟩

end AIDebate
